import Mathlib

/-!
Shallow embedding of the stemux marker/loop engine, transport seek logic,
recording alignment arithmetic and silence padding, translated from the
TypeScript store (`useAudioStore` / part_004), the waveform time-update
handler, the recording handlers and `audioUtils.addSilencePadding`.

Times are modelled as exact rationals (`ℚ`), ids as strings, timestamps as
naturals.  Side effects on the external playback adapters (WaveSurfer
`setTime`/`play`, persistence writes, logging) are outside the embedded
state; the embedding covers the store state those operations mutate and
the commands (corrective seeks) they issue.
-/

namespace Stemux

/-- A timeline marker: `{ id, time, createdAt, label? }`. -/
structure Marker where
  id : String
  time : ℚ
  createdAt : ℕ
  label : Option String
deriving DecidableEq, Repr

/-- A loop between two markers: `{ id, startMarkerId, endMarkerId, enabled, createdAt }`. -/
structure Loop where
  id : String
  startMarkerId : String
  endMarkerId : String
  enabled : Bool
  createdAt : ℕ
deriving DecidableEq, Repr

/-- `LoopState`: markers, loops, the active loop reference and the edit-mode flag. -/
structure LoopState where
  markers : List Marker
  loops : List Loop
  activeLoopId : Option String
  editMode : Bool
deriving DecidableEq, Repr

/-- The legacy loop region used by the fallback branch of the time-update
handler: `{ enabled, start, end }` (the source field `end` is a Lean
keyword, rendered here as `stop`). -/
structure LoopRegion where
  enabled : Bool
  start : ℚ
  stop : ℚ
deriving DecidableEq, Repr

/-- `PlaybackState`: playing flag, authoritative current time, duration, rate. -/
structure PlaybackState where
  isPlaying : Bool
  currentTime : ℚ
  duration : ℚ
  playbackRate : ℚ
deriving DecidableEq, Repr

/-- The slice of the zustand `AudioStore` state that the marker/loop engine
and transport seek logic read and write.  `preserveLoopOnNextSeek` embeds
the source field `_preserveLoopOnNextSeek`. -/
structure AudioStore where
  playbackState : PlaybackState
  loopState : LoopState
  loopRegion : LoopRegion
  preserveLoopOnNextSeek : Bool
deriving DecidableEq, Repr

/-- The comparator `(a, b) => a.time - b.time` used by the source's
`Array.prototype.sort` calls: ascending by time (JS sort is stable, as is
`List.mergeSort`). -/
def markerLe (a b : Marker) : Bool := a.time ≤ b.time

/-- `loopState.markers.find(m => m.id === id)`. -/
def findMarker (s : LoopState) (id : String) : Option Marker :=
  s.markers.find? (fun m => m.id == id)

/-- `loopState.loops.find(l => l.id === id)`. -/
def findLoop (s : LoopState) (id : String) : Option Loop :=
  s.loops.find? (fun l => l.id == id)

/-- The `seekingInsideActiveLoop` computation at the top of `seek`:
`false` when the preserve flag is set, otherwise whether the target time
satisfies `time >= startMarker.time && time <= endMarker.time` for the
resolved active loop (false when anything fails to resolve). -/
def seekingInsideActiveLoop (store : AudioStore) (time : ℚ) : Bool :=
  if store.preserveLoopOnNextSeek then false
  else
    match store.loopState.activeLoopId with
    | none => false
    | some aid =>
      match findLoop store.loopState aid with
      | none => false
      | some activeLoop =>
        match findMarker store.loopState activeLoop.startMarkerId,
              findMarker store.loopState activeLoop.endMarkerId with
        | some startMarker, some endMarker =>
            decide (startMarker.time ≤ time) && decide (time ≤ endMarker.time)
        | _, _ => false

/-- The guard of `seek`'s disable branch:
`!preserveLoop && !seekingInsideActiveLoop && state.loopState.activeLoopId`. -/
def seekDisablesLoops (store : AudioStore) (time : ℚ) : Bool :=
  !store.preserveLoopOnNextSeek && !seekingInsideActiveLoop store time
    && store.loopState.activeLoopId.isSome

/-- `seek(time)` from the store (part_004 lines 556–636).  Decides whether
the target lies inside the active loop's span, stores the new
`currentTime` unchanged, resets the preserve flag, and disables every loop
and clears `activeLoopId` when an active loop exists and the target is
outside its span.  The propagation `ws.setTime(time)` to the adapters and
the finished-track bookkeeping are external effects. -/
def seek (store : AudioStore) (time : ℚ) : AudioStore :=
  let loopState' :=
    if seekDisablesLoops store time then
      { store.loopState with
          activeLoopId := none
          loops := store.loopState.loops.map (fun l => { l with enabled := false }) }
    else store.loopState
  { store with
      playbackState := { store.playbackState with currentTime := time }
      loopState := loopState'
      preserveLoopOnNextSeek := false }

/-- `addMarker(time, label?)` (part_004 lines 695–741).  `newId` stands for
the generated `marker-${Date.now()}-${Math.random()}` and `now` for
`Date.now()`.  Returns the updated store and the returned id (`''` when the
20-marker cap is hit).  The time is clamped
(`Math.max(0, Math.min(time, duration))`) and the appended list re-sorted
by time. -/
def addMarker (store : AudioStore) (time : ℚ) (newId : String) (now : ℕ)
    (label : Option String) : AudioStore × String :=
  if store.loopState.markers.length ≥ 20 then (store, "")
  else
    let newMarker : Marker :=
      { id := newId
        time := max 0 (min time store.playbackState.duration)
        createdAt := now
        label := label }
    let newMarkers := (store.loopState.markers ++ [newMarker]).mergeSort markerLe
    ({ store with loopState := { store.loopState with markers := newMarkers } }, newId)

/-- `removeMarker(id)` (part_004 lines 743–783).  Removes the marker,
cascades removal of every loop referencing it, and clears `activeLoopId`
when the active loop was among the removed loops. -/
def removeMarker (store : AudioStore) (id : String) : AudioStore :=
  let loopsToRemove := store.loopState.loops.filter
    (fun l => l.startMarkerId == id || l.endMarkerId == id)
  let newMarkers := store.loopState.markers.filter (fun m => m.id != id)
  let newLoops := store.loopState.loops.filter
    (fun l => l.startMarkerId != id && l.endMarkerId != id)
  let newActive :=
    if loopsToRemove.any (fun l => store.loopState.activeLoopId == some l.id) then none
    else store.loopState.activeLoopId
  { store with
      loopState :=
        { store.loopState with
            markers := newMarkers
            loops := newLoops
            activeLoopId := newActive } }

/-- `updateMarkerTime(id, time)` (part_004 lines 785–812): clamps the new
time to `[0, duration]`, rewrites the matching marker and re-sorts. -/
def updateMarkerTime (store : AudioStore) (id : String) (time : ℚ) : AudioStore :=
  let newMarkers :=
    (store.loopState.markers.map (fun m =>
      if m.id == id then
        { m with time := max 0 (min time store.playbackState.duration) }
      else m)).mergeSort markerLe
  { store with loopState := { store.loopState with markers := newMarkers } }

/-- `createLoop(startMarkerId, endMarkerId)` (part_004 lines 814–872).
Rejects (returning `''`) when the 10-loop cap is reached or either marker
id is unresolved; otherwise orders the pair by marker times and appends a
new disabled loop.  `newId` stands for the generated
`loop-${Date.now()}-${Math.random()}`. -/
def createLoop (store : AudioStore) (startMarkerId endMarkerId : String)
    (newId : String) (now : ℕ) : AudioStore × String :=
  if store.loopState.loops.length ≥ 10 then (store, "")
  else
    match findMarker store.loopState startMarkerId,
          findMarker store.loopState endMarkerId with
    | some startMarker, some endMarker =>
      let se : String × String :=
        if startMarker.time < endMarker.time then (startMarkerId, endMarkerId)
        else (endMarkerId, startMarkerId)
      let newLoop : Loop :=
        { id := newId
          startMarkerId := se.1
          endMarkerId := se.2
          enabled := false
          createdAt := now }
      ({ store with
          loopState :=
            { store.loopState with loops := store.loopState.loops ++ [newLoop] } },
        newId)
    | _, _ => (store, "")

/-- `removeLoop(id)` (part_004 lines 874–898). -/
def removeLoop (store : AudioStore) (id : String) : AudioStore :=
  let newLoops := store.loopState.loops.filter (fun l => l.id != id)
  let newActive :=
    if store.loopState.activeLoopId == some id then none
    else store.loopState.activeLoopId
  { store with
      loopState :=
        { store.loopState with loops := newLoops, activeLoopId := newActive } }

/-- `toggleLoopById(id)` (part_004 lines 900–944).  Flips the found loop's
enabled flag, forces every other loop to disabled, sets `activeLoopId`,
and — when the loop became enabled and its start marker resolves — seeks
the transport to the start marker's time (the seek runs on the already
updated store, exactly as the source's `seek` re-reads state via `get()`). -/
def toggleLoopById (store : AudioStore) (id : String) : AudioStore :=
  match findLoop store.loopState id with
  | none => store
  | some lp =>
    let newEnabled := !lp.enabled
    let newLoops := store.loopState.loops.map (fun l =>
      if l.id == id then { l with enabled := newEnabled } else { l with enabled := false })
    let store1 :=
      { store with
          loopState :=
            { store.loopState with
                loops := newLoops
                activeLoopId := if newEnabled then some id else none } }
    if newEnabled then
      match findMarker store.loopState lp.startMarkerId with
      | some startMarker => seek store1 startMarker.time
      | none => store1
    else store1

/-- `setActiveLoop(id | null)` (part_004 lines 946–977): enables exactly
the loops whose id equals the argument (none when `null`), stores the
argument as `activeLoopId` and marks the next seek as preserve exactly
when the argument is non-null. -/
def setActiveLoop (store : AudioStore) (id : Option String) : AudioStore :=
  let newLoops := store.loopState.loops.map (fun l => { l with enabled := id == some l.id })
  { store with
      loopState := { store.loopState with loops := newLoops, activeLoopId := id }
      preserveLoopOnNextSeek := id.isSome }

/-- One `timeupdate` event from a playback adapter, as handled by the
`wavesurfer.on('timeupdate')` callback in `WaveformDisplay`
(part_002 lines 115–149).  `now` is `Date.now()` in milliseconds,
`lastTimeUpdate` the throttle state.  Returns the store after any
corrective seek, the list of seek targets issued by this event (empty or a
singleton), and the new throttle state.  Events inside the 20 ms throttle
window are dropped without touching the throttle state, as in the source. -/
def handleTimeUpdate (store : AudioStore) (lastTimeUpdate now : ℕ) (currentTime : ℚ) :
    AudioStore × List ℚ × ℕ :=
  if now - lastTimeUpdate > 20 then
    let result : AudioStore × List ℚ :=
      match store.loopState.activeLoopId with
      | some aid =>
        match findLoop store.loopState aid with
        | some activeLoop =>
          if activeLoop.enabled then
            match findMarker store.loopState activeLoop.startMarkerId,
                  findMarker store.loopState activeLoop.endMarkerId with
            | some startMarker, some endMarker =>
              if currentTime ≥ endMarker.time then
                (seek store startMarker.time, [startMarker.time])
              else (store, [])
            | _, _ => (store, [])
          else (store, [])
        | none => (store, [])
      | none =>
        -- Fallback to the old loop system
        if store.loopRegion.enabled && decide (store.loopRegion.start < store.loopRegion.stop)
            && decide (currentTime ≥ store.loopRegion.stop) then
          (seek store store.loopRegion.start, [store.loopRegion.start])
        else (store, [])
    (result.1, result.2, now)
  else (store, [], lastTimeUpdate)

/-- A sequence of simulated `timeupdate` events, each a `(now, currentTime)`
pair, threaded through `handleTimeUpdate`; collects every corrective seek
issued, in order. -/
def runTimeUpdates (store : AudioStore) (lastTimeUpdate : ℕ)
    (events : List (ℕ × ℚ)) : AudioStore × List ℚ × ℕ :=
  match events with
  | [] => (store, [], lastTimeUpdate)
  | (now, t) :: rest =>
    let step := handleTimeUpdate store lastTimeUpdate now t
    let tail := runTimeUpdates step.1 step.2.2 rest
    (tail.1, step.2.1 ++ tail.2.1, tail.2.2)

/-- `handleMouseUp` of `LoopEditorOverlay` (lines 130–162), the edit-mode
gesture: a drag of distance `< 0.5 s` creates a single marker at the drag
start; otherwise two markers at the ordered endpoints and — only when both
`addMarker` calls returned truthy (non-empty) ids — a loop linking them.
`id1`, `id2`, `id3` stand for the generated fresh ids, `now` for
`Date.now()`. -/
def handleMouseUp (store : AudioStore) (dragStart endTime : ℚ)
    (id1 id2 id3 : String) (now : ℕ) : AudioStore :=
  let distance := |endTime - dragStart|
  if distance < 1/2 then (addMarker store dragStart id1 now none).1
  else
    let se : ℚ × ℚ :=
      if dragStart < endTime then (dragStart, endTime) else (endTime, dragStart)
    let r1 := addMarker store se.1 id1 now none
    let r2 := addMarker r1.1 se.2 id2 now none
    if r1.2 != "" && r2.2 != "" then (createLoop r2.1 r1.2 r2.2 id3 now).1
    else r2.1

/-- The half-latency compensation of the `record-end` handler in
`RecordableWaveform` (part_003 lines 95–126): the expected offset is
`track.recordingStartOffset || 0`, the latency the difference between the
actual start time and the expected one, and the compensated offset
`expected + latency / 2`. -/
def recordEndCompensatedOffset (recordingStartOffset : Option ℚ)
    (actualStartTime : ℚ) : ℚ :=
  let expectedStartTime := recordingStartOffset.getD 0
  let latency := actualStartTime - expectedStartTime
  expectedStartTime + latency / 2

/-- The padding-sample computation of `addSilencePadding`
(part_005 / audioUtils lines 145–236): the compensated offset adds the
constant `LATENCY_COMPENSATION_MS = 0`, and the number of silence samples
is `Math.floor(compensatedOffset * sampleRate)` when the compensated
offset is positive, else `0`. -/
def paddingSamples (offsetSeconds : ℚ) (sampleRate : ℚ) : ℤ :=
  let compensatedOffset := offsetSeconds + (0 : ℚ) / 1000
  if compensatedOffset > 0 then ⌊compensatedOffset * sampleRate⌋ else 0

/-- The mono branch of `addSilencePadding`: the channel written into the
freshly zero-initialized padded buffer via
`leftData.set(originalData, paddingSamples)` — `paddingSamples` zeros
followed by the processed samples (both stereo channels receive the same
data). -/
def addSilencePaddingMono (data : List ℚ) (offsetSeconds : ℚ)
    (sampleRate : ℚ) : List ℚ :=
  let pad := (paddingSamples offsetSeconds sampleRate).toNat
  List.replicate pad 0 ++ data

/-- Modelled from the spec: the spec's stated padding length
`round(compensatedOffset × sampleRate)`, with JavaScript `Math.round`
semantics (`⌊x + 1/2⌋`), used only to compare the spec's formula with the
source's. -/
def roundSpecPaddingSamples (offsetSeconds : ℚ) (sampleRate : ℚ) : ℤ :=
  ⌊offsetSeconds * sampleRate + 1/2⌋

/-! ### Call sequences and invariant predicates -/

/-- A call to one of the two loop-activation operations. -/
inductive LoopCall where
  | toggle (id : String)
  | setActive (id : Option String)
deriving DecidableEq, Repr

/-- Dispatch one loop-activation call. -/
def applyLoopCall (store : AudioStore) : LoopCall → AudioStore
  | .toggle id => toggleLoopById store id
  | .setActive id => setActiveLoop store id

/-- Run a sequence of loop-activation calls. -/
def applyLoopCalls (store : AudioStore) (cs : List LoopCall) : AudioStore :=
  cs.foldl applyLoopCall store

/-- A `setActiveLoop` argument is well-aimed when it is `null` or the id of
a loop present in the state at the time of the call; `toggleLoopById`
ignores unknown ids by itself. -/
def goodLoopCall (store : AudioStore) : LoopCall → Bool
  | .toggle _ => true
  | .setActive none => true
  | .setActive (some a) => store.loopState.loops.any (fun l => l.id == a)

/-- Every call of the sequence is well-aimed in the state it runs in. -/
def goodLoopCalls (store : AudioStore) : List LoopCall → Bool
  | [] => true
  | c :: cs => goodLoopCall store c && goodLoopCalls (applyLoopCall store c) cs

/-- At most one loop is enabled. -/
abbrev atMostOneEnabled (s : LoopState) : Prop :=
  (s.loops.filter (fun l => l.enabled)).length ≤ 1

/-- `activeLoopId` is the id of an enabled loop, or `null` when no loop is
enabled. -/
abbrev activeMatchesEnabled (s : LoopState) : Prop :=
  (∀ l ∈ s.loops, l.enabled = true → s.activeLoopId = some l.id) ∧
  (s.activeLoopId = none ∨ ∃ l ∈ s.loops, l.enabled = true ∧ s.activeLoopId = some l.id)

/-- The inductive invariant behind the single-active-loop property: loop
ids are pairwise distinct, a loop is enabled exactly when its id is the
active one, and the active id (when set) belongs to some loop. -/
abbrev loopInv (s : LoopState) : Prop :=
  (s.loops.map Loop.id).Nodup ∧
  (∀ l ∈ s.loops, l.enabled = true ↔ s.activeLoopId = some l.id) ∧
  (s.activeLoopId = none ∨ ∃ l ∈ s.loops, s.activeLoopId = some l.id)

/-- The marker collection is ascending by time. -/
abbrev MarkersSorted (s : LoopState) : Prop :=
  s.markers.Pairwise (fun a b => a.time ≤ b.time)

/-- Referential integrity: every loop's marker references resolve. -/
abbrev refIntegrity (s : LoopState) : Prop :=
  ∀ l ∈ s.loops,
    (∃ m ∈ s.markers, m.id = l.startMarkerId) ∧ (∃ m ∈ s.markers, m.id = l.endMarkerId)

/-- One marker/loop-engine operation (the mutators of claim C10, including
the edit-mode gesture). -/
inductive EngineOp where
  | addM (time : ℚ) (newId : String) (now : ℕ) (label : Option String)
  | removeM (id : String)
  | updateM (id : String) (time : ℚ)
  | createL (a b newId : String) (now : ℕ)
  | removeL (id : String)
  | gesture (dragStart endTime : ℚ) (id1 id2 id3 : String) (now : ℕ)
deriving DecidableEq, Repr

/-- Dispatch one engine operation. -/
def applyEngineOp (store : AudioStore) : EngineOp → AudioStore
  | .addM time newId now label => (addMarker store time newId now label).1
  | .removeM id => removeMarker store id
  | .updateM id time => updateMarkerTime store id time
  | .createL a b newId now => (createLoop store a b newId now).1
  | .removeL id => removeLoop store id
  | .gesture dragStart endTime id1 id2 id3 now =>
      handleMouseUp store dragStart endTime id1 id2 id3 now

/-- Run a sequence of engine operations. -/
def applyEngineOps (store : AudioStore) (ops : List EngineOp) : AudioStore :=
  ops.foldl applyEngineOp store

/-- One `addMarker` call with its generated id and timestamp. -/
structure AddMarkerCall where
  time : ℚ
  newId : String
  now : ℕ
  label : Option String
deriving DecidableEq, Repr

/-- Run a sequence of `addMarker` calls, dropping the returned ids. -/
def applyAddMarkerCalls (store : AudioStore) (cs : List AddMarkerCall) : AudioStore :=
  cs.foldl (fun s c => (addMarker s c.time c.newId c.now c.label).1) store

/-- A neutral concrete store used to build the concrete test states of the
witnesses and counterexamples. -/
def baseStore : AudioStore :=
  { playbackState := { isPlaying := false, currentTime := 0, duration := 10, playbackRate := 1 }
    loopState := { markers := [], loops := [], activeLoopId := none, editMode := false }
    loopRegion := { enabled := false, start := 0, stop := 0 }
    preserveLoopOnNextSeek := false }

/-- A concrete marker for test states. -/
def exMarker (i : String) (t : ℚ) : Marker :=
  { id := i, time := t, createdAt := 0, label := none }

/-- A concrete loop for test states. -/
def exLoop (i a b : String) (e : Bool) : Loop :=
  { id := i, startMarkerId := a, endMarkerId := b, enabled := e, createdAt := 0 }

/-- A store holding one enabled, active loop `[2 s, 5 s]` between markers
`m1` and `m2`. -/
def activeLoopStore : AudioStore :=
  { baseStore with
      loopState :=
        { markers := [exMarker "m1" 2, exMarker "m2" 5]
          loops := [exLoop "L1" "m1" "m2" true]
          activeLoopId := some "L1"
          editMode := false } }

/-- A store holding two markers and one existing (disabled) loop between
them, used to exercise `createLoop` on an identical pair. -/
def dupPairStore : AudioStore :=
  { baseStore with
      loopState :=
        { markers := [exMarker "m1" 2, exMarker "m2" 5]
          loops := [exLoop "OLD" "m1" "m2" false]
          activeLoopId := none
          editMode := false } }

/-- A store already holding the 20-marker maximum. -/
def cappedMarkerStore : AudioStore :=
  { baseStore with
      loopState :=
        { markers := (List.range 20).map (fun i => exMarker (toString i) i)
          loops := []
          activeLoopId := none
          editMode := false } }

/-- A store with two disabled loops sharing the same marker pair, with no
enabled loop and no active id. -/
def twoLoopStore : AudioStore :=
  { baseStore with
      loopState :=
        { markers := [exMarker "m1" 2, exMarker "m2" 5]
          loops := [exLoop "L1" "m1" "m2" false, exLoop "L2" "m1" "m2" false]
          activeLoopId := none
          editMode := false } }

/-! ### Helper lemmas -/

theorem nodup_ids_of_map (loops : List Loop) (f : Loop → Loop)
    (h : ∀ l, (f l).id = l.id) (hnd : (loops.map Loop.id).Nodup) :
    ((loops.map f).map Loop.id).Nodup := by
  have heq : (loops.map f).map Loop.id = loops.map Loop.id := by
    rw [List.map_map]
    exact List.map_congr_left (fun a _ => h a)
  rw [heq]
  exact hnd

theorem loopInv_seek (store : AudioStore) (t : ℚ)
    (h : loopInv store.loopState) : loopInv (seek store t).loopState := by
  by_cases hc : seekDisablesLoops store t
  · simp only [seek, hc, if_true]
    refine ⟨?_, ?_, Or.inl rfl⟩
    · exact nodup_ids_of_map _ (fun l => { l with enabled := false }) (fun l => rfl) h.1
    · intro l hl
      rcases List.mem_map.1 hl with ⟨l0, _, rfl⟩
      simp
  · simpa only [seek, hc, if_false] using h

theorem loopInv_setActiveLoop (store : AudioStore) (id : Option String)
    (h : loopInv store.loopState)
    (hgood : goodLoopCall store (LoopCall.setActive id) = true) :
    loopInv (setActiveLoop store id).loopState := by
  obtain ⟨hnd, hiff, hex⟩ := h
  simp only [setActiveLoop]
  refine ⟨?_, ?_, ?_⟩
  · exact nodup_ids_of_map _ (fun l => { l with enabled := id == some l.id })
      (fun l => rfl) hnd
  · intro l hl
    rcases List.mem_map.1 hl with ⟨l0, _, rfl⟩
    simp
  · cases id with
    | none => exact Or.inl rfl
    | some a =>
      right
      simp only [goodLoopCall, List.any_eq_true, beq_iff_eq] at hgood
      obtain ⟨l, hl, hla⟩ := hgood
      refine ⟨{ l with enabled := some a == some l.id }, ?_, ?_⟩
      · exact List.mem_map_of_mem _ hl
      · simp [hla]

theorem loopInv_toggleLoopById (store : AudioStore) (id : String)
    (h : loopInv store.loopState) :
    loopInv (toggleLoopById store id).loopState := by
  unfold toggleLoopById
  cases hf : findLoop store.loopState id with
  | none => exact h
  | some lp =>
    have hmem : lp ∈ store.loopState.loops := List.mem_of_find?_eq_some hf
    have hid : lp.id = id := by simpa using List.find?_some hf
    by_cases hen : lp.enabled
    · -- disabling: all loops forced off, activeLoopId := none
      simp only [hen, Bool.not_true, if_false]
      refine ⟨?_, ?_, Or.inl rfl⟩
      · exact nodup_ids_of_map _
          (fun l => if l.id == id then { l with enabled := false }
                    else { l with enabled := false })
          (fun l => by by_cases hc : l.id == id <;> simp [hc]) h.1
      · intro l hl
        rcases List.mem_map.1 hl with ⟨l0, _, rfl⟩
        by_cases hc : l0.id == id <;> simp [hc]
    · -- enabling: exactly the matching loop on, then a seek to the start marker
      simp only [hen, Bool.not_false, if_true]
      have h1 : loopInv
          { store.loopState with
              loops := store.loopState.loops.map (fun l =>
                if l.id == id then { l with enabled := true }
                else { l with enabled := false })
              activeLoopId := some id } := by
        refine ⟨?_, ?_, ?_⟩
        · exact nodup_ids_of_map _
            (fun l => if l.id == id then { l with enabled := true }
                      else { l with enabled := false })
            (fun l => by by_cases hc : l.id == id <;> simp [hc]) h.1
        · intro l hl
          rcases List.mem_map.1 hl with ⟨l0, _, rfl⟩
          by_cases hc : l0.id == id
          · simp only [hc, if_true]
            simp only [beq_iff_eq] at hc
            simp [hc]
          · simp only [hc, if_false]
            simp only [beq_iff_eq] at hc
            simp only [Option.some.injEq]
            constructor
            · intro hfalse
              exact absurd hfalse (by simp)
            · intro he
              exact absurd he.symm hc
        · right
          refine ⟨{ lp with enabled := true }, ?_, ?_⟩
          · have : (if lp.id == id then { lp with enabled := true }
                else { lp with enabled := false }) = { lp with enabled := true } := by
              simp [hid]
            rw [← this]
            exact List.mem_map_of_mem _ hmem
          · simp [hid]
      cases hm : findMarker store.loopState lp.startMarkerId with
      | none => exact h1
      | some sm => exact loopInv_seek _ _ h1

theorem loopInv_applyLoopCall (s : AudioStore) (c : LoopCall)
    (h : loopInv s.loopState) (hgood : goodLoopCall s c = true) :
    loopInv (applyLoopCall s c).loopState := by
  cases c with
  | toggle id => exact loopInv_toggleLoopById s id h
  | setActive id => exact loopInv_setActiveLoop s id h hgood

theorem loopInv_applyLoopCalls (cs : List LoopCall) (s : AudioStore)
    (h : loopInv s.loopState) (hgood : goodLoopCalls s cs = true) :
    loopInv (applyLoopCalls s cs).loopState := by
  induction cs generalizing s with
  | nil => exact h
  | cons c rest ih =>
    simp only [goodLoopCalls, Bool.and_eq_true] at hgood
    exact ih _ (loopInv_applyLoopCall s c h hgood.1) hgood.2

theorem length_filter_enabled_le_one (loops : List Loop) (a : String)
    (hnd : (loops.map Loop.id).Nodup)
    (hall : ∀ l ∈ loops, l.enabled = true → l.id = a) :
    (loops.filter (fun l => l.enabled)).length ≤ 1 := by
  induction loops with
  | nil => simp
  | cons x rest ih =>
    simp only [List.map_cons, List.nodup_cons] at hnd
    by_cases hx : x.enabled
    · rw [List.filter_cons_of_pos (by simpa using hx)]
      have hrest : rest.filter (fun l => l.enabled) = [] := by
        rw [List.eq_nil_iff_forall_not_mem]
        intro l hl
        rw [List.mem_filter] at hl
        have hide : l.id = a := hall l (List.mem_cons_of_mem _ hl.1) (by simpa using hl.2)
        have hxa : x.id = a := hall x (List.mem_cons_self _ _) hx
        exact hnd.1 (by rw [hxa, ← hide]; exact List.mem_map_of_mem _ hl.1)
      simp [hrest]
    · rw [List.filter_cons_of_neg (by simpa using hx)]
      exact ih hnd.2 (fun l hl he => hall l (List.mem_cons_of_mem _ hl) he)

theorem loopInv_claim (s : LoopState) (h : loopInv s) :
    atMostOneEnabled s ∧ activeMatchesEnabled s := by
  obtain ⟨hnd, hiff, hex⟩ := h
  refine ⟨?_, ?_, ?_⟩
  · cases hex with
    | inl hnone =>
      have hnil : s.loops.filter (fun l => l.enabled) = [] := by
        rw [List.eq_nil_iff_forall_not_mem]
        intro l hl
        rw [List.mem_filter] at hl
        have := (hiff l hl.1).1 (by simpa using hl.2)
        rw [hnone] at this
        cases this
      simp [atMostOneEnabled, hnil]
    | inr hex2 =>
      obtain ⟨l0, hl0, ha⟩ := hex2
      refine length_filter_enabled_le_one s.loops l0.id hnd (fun l hl he => ?_)
      have h1 := (hiff l hl).1 he
      rw [ha] at h1
      exact (Option.some.inj h1).symm
  · intro l hl he
    exact (hiff l hl).1 he
  · cases hex with
    | inl hnone => exact Or.inl hnone
    | inr hex2 =>
      obtain ⟨l0, hl0, ha⟩ := hex2
      exact Or.inr ⟨l0, hl0, (hiff l0 hl0).2 ha, ha⟩

theorem markerLe_trans' (a b c : Marker) (hab : markerLe a b) (hbc : markerLe b c) :
    markerLe a c := by
  simp only [markerLe, decide_eq_true_eq] at *
  exact le_trans hab hbc

theorem markerLe_total' (a b : Marker) : markerLe a b || markerLe b a := by
  simp only [markerLe, Bool.or_eq_true, decide_eq_true_eq]
  exact le_total a.time b.time

theorem markersSorted_mergeSort (l : List Marker) :
    (l.mergeSort markerLe).Pairwise (fun a b => a.time ≤ b.time) := by
  refine (List.sorted_mergeSort markerLe_trans' markerLe_total' l).imp ?_
  intro a b h
  simpa [markerLe] using h

theorem addMarker_markers_inv (store : AudioStore) (t : ℚ) (nid : String)
    (now : ℕ) (lbl : Option String)
    (hsorted : MarkersSorted store.loopState)
    (hlen : store.loopState.markers.length ≤ 20) :
    MarkersSorted (addMarker store t nid now lbl).1.loopState ∧
    (addMarker store t nid now lbl).1.loopState.markers.length ≤ 20 := by
  unfold addMarker
  by_cases hcap : store.loopState.markers.length ≥ 20
  · rw [if_pos hcap]
    exact ⟨hsorted, hlen⟩
  · rw [if_neg hcap]
    constructor
    · exact markersSorted_mergeSort _
    · simp only [List.length_mergeSort, List.length_append, List.length_singleton]
      omega

theorem applyAddMarkerCalls_inv (cs : List AddMarkerCall) (init : AudioStore)
    (h1 : MarkersSorted init.loopState)
    (h2 : init.loopState.markers.length ≤ 20) :
    MarkersSorted (applyAddMarkerCalls init cs).loopState ∧
    (applyAddMarkerCalls init cs).loopState.markers.length ≤ 20 := by
  induction cs generalizing init with
  | nil => exact ⟨h1, h2⟩
  | cons c rest ih =>
    have step := addMarker_markers_inv init c.time c.newId c.now c.label h1 h2
    exact ih _ step.1 step.2

theorem refIntegrity_addMarker (store : AudioStore) (t : ℚ) (nid : String)
    (now : ℕ) (lbl : Option String) (h : refIntegrity store.loopState) :
    refIntegrity (addMarker store t nid now lbl).1.loopState := by
  unfold addMarker
  by_cases hcap : store.loopState.markers.length ≥ 20
  · rw [if_pos hcap]
    exact h
  · rw [if_neg hcap]
    intro l hl
    obtain ⟨⟨m1, hm1, he1⟩, ⟨m2, hm2, he2⟩⟩ := h l hl
    refine ⟨⟨m1, ?_, he1⟩, ⟨m2, ?_, he2⟩⟩ <;>
      · rw [List.mem_mergeSort]
        exact List.mem_append_left _ ‹_›

theorem refIntegrity_updateMarkerTime (store : AudioStore) (id : String) (t : ℚ)
    (h : refIntegrity store.loopState) :
    refIntegrity (updateMarkerTime store id t).loopState := by
  unfold updateMarkerTime
  intro l hl
  obtain ⟨⟨m1, hm1, he1⟩, ⟨m2, hm2, he2⟩⟩ := h l hl
  refine
    ⟨⟨if m1.id == id then { m1 with time := max 0 (min t store.playbackState.duration) }
        else m1, ?_, ?_⟩,
     ⟨if m2.id == id then { m2 with time := max 0 (min t store.playbackState.duration) }
        else m2, ?_, ?_⟩⟩
  · rw [List.mem_mergeSort]
    exact List.mem_map_of_mem _ hm1
  · split <;> simpa using he1
  · rw [List.mem_mergeSort]
    exact List.mem_map_of_mem _ hm2
  · split <;> simpa using he2

theorem refIntegrity_removeMarker (store : AudioStore) (id : String)
    (h : refIntegrity store.loopState) :
    refIntegrity (removeMarker store id).loopState := by
  unfold removeMarker
  intro l hl
  rw [List.mem_filter] at hl
  obtain ⟨hmem, hcond⟩ := hl
  simp only [Bool.and_eq_true, bne_iff_ne] at hcond
  obtain ⟨⟨m1, hm1, he1⟩, ⟨m2, hm2, he2⟩⟩ := h l hmem
  refine ⟨⟨m1, ?_, he1⟩, ⟨m2, ?_, he2⟩⟩
  · rw [List.mem_filter]
    exact ⟨hm1, by simp [bne_iff_ne, he1, hcond.1]⟩
  · rw [List.mem_filter]
    exact ⟨hm2, by simp [bne_iff_ne, he2, hcond.2]⟩

theorem refIntegrity_removeLoop (store : AudioStore) (id : String)
    (h : refIntegrity store.loopState) :
    refIntegrity (removeLoop store id).loopState := by
  unfold removeLoop
  intro l hl
  rw [List.mem_filter] at hl
  exact h l hl.1

theorem refIntegrity_createLoop (store : AudioStore) (aId bId nid : String)
    (now : ℕ) (h : refIntegrity store.loopState) :
    refIntegrity (createLoop store aId bId nid now).1.loopState := by
  unfold createLoop
  by_cases hcap : store.loopState.loops.length ≥ 10
  · rw [if_pos hcap]
    exact h
  · rw [if_neg hcap]
    cases hs : findMarker store.loopState aId with
    | none => exact h
    | some sm =>
      cases he : findMarker store.loopState bId with
      | none => exact h
      | some em =>
        have hsm : sm ∈ store.loopState.markers := List.mem_of_find?_eq_some hs
        have hsmid : sm.id = aId := by simpa using List.find?_some hs
        have hem : em ∈ store.loopState.markers := List.mem_of_find?_eq_some he
        have hemid : em.id = bId := by simpa using List.find?_some he
        intro l hl
        rw [List.mem_append] at hl
        cases hl with
        | inl hmem => exact h l hmem
        | inr hnew =>
          rw [List.mem_singleton] at hnew
          subst hnew
          by_cases hlt : sm.time < em.time <;>
            simp only [hlt, if_true, if_false, ite_true, ite_false]
          · exact ⟨⟨sm, hsm, hsmid⟩, ⟨em, hem, hemid⟩⟩
          · exact ⟨⟨em, hem, hemid⟩, ⟨sm, hsm, hsmid⟩⟩

theorem refIntegrity_handleMouseUp (store : AudioStore) (dragStart endTime : ℚ)
    (id1 id2 id3 : String) (now : ℕ) (h : refIntegrity store.loopState) :
    refIntegrity (handleMouseUp store dragStart endTime id1 id2 id3 now).loopState := by
  unfold handleMouseUp
  by_cases hd : |endTime - dragStart| < 1/2
  · rw [if_pos hd]
    exact refIntegrity_addMarker _ _ _ _ _ h
  · rw [if_neg hd]
    by_cases hse : dragStart < endTime <;>
      simp only [hse, if_true, if_false, ite_true, ite_false] <;>
      split
    · exact refIntegrity_createLoop _ _ _ _ _
        (refIntegrity_addMarker _ _ _ _ _ (refIntegrity_addMarker _ _ _ _ _ h))
    · exact refIntegrity_addMarker _ _ _ _ _ (refIntegrity_addMarker _ _ _ _ _ h)
    · exact refIntegrity_createLoop _ _ _ _ _
        (refIntegrity_addMarker _ _ _ _ _ (refIntegrity_addMarker _ _ _ _ _ h))
    · exact refIntegrity_addMarker _ _ _ _ _ (refIntegrity_addMarker _ _ _ _ _ h)

theorem refIntegrity_applyEngineOp (store : AudioStore) (op : EngineOp)
    (h : refIntegrity store.loopState) :
    refIntegrity (applyEngineOp store op).loopState := by
  cases op with
  | addM t nid now lbl => exact refIntegrity_addMarker store t nid now lbl h
  | removeM id => exact refIntegrity_removeMarker store id h
  | updateM id t => exact refIntegrity_updateMarkerTime store id t h
  | createL a b nid now => exact refIntegrity_createLoop store a b nid now h
  | removeL id => exact refIntegrity_removeLoop store id h
  | gesture ds de i1 i2 i3 now => exact refIntegrity_handleMouseUp store ds de i1 i2 i3 now h

/-! ### Claims -/

/-- C1 (counterexample): starting from a `LoopState` with no enabled loop,
the single call `setActiveLoop "X"` with an id naming no loop leaves no
loop enabled yet stores `activeLoopId = "X" ≠ null`, so the claim's
"`activeLoopId` is the id of the enabled loop (or null when no loop is
enabled)" fails as stated. -/
theorem c1_counterexample :
    (∀ l ∈ baseStore.loopState.loops, l.enabled = false) ∧
    ¬ activeMatchesEnabled
        (applyLoopCalls baseStore [LoopCall.setActive (some "X")]).loopState := by
  decide

/-- C1 (amended): starting from a `LoopState` whose loop ids are pairwise
distinct, with no enabled loop and `activeLoopId = null`, every sequence
of `toggleLoopById` calls and of `setActiveLoop` calls whose argument is
null or the id of a loop present at the time of the call leaves at most
one loop enabled, with `activeLoopId` the id of that enabled loop (or
null when no loop is enabled). -/
theorem c1_single_active_loop (init : AudioStore) (cs : List LoopCall)
    (hnd : (init.loopState.loops.map Loop.id).Nodup)
    (hdis : ∀ l ∈ init.loopState.loops, l.enabled = false)
    (hact : init.loopState.activeLoopId = none)
    (hgood : goodLoopCalls init cs = true) :
    atMostOneEnabled (applyLoopCalls init cs).loopState ∧
    activeMatchesEnabled (applyLoopCalls init cs).loopState := by
  have hinv : loopInv init.loopState :=
    ⟨hnd, fun l hl => by simp [hdis l hl, hact], Or.inl hact⟩
  exact loopInv_claim _ (loopInv_applyLoopCalls cs init hinv hgood)

/-- C1 witness: the amended theorem applied to a concrete two-loop store
and a four-call sequence mixing toggles and (well-aimed) activations. -/
theorem c1_single_active_loop_witness :
    atMostOneEnabled (applyLoopCalls twoLoopStore
      [LoopCall.toggle "L1", LoopCall.setActive (some "L2"),
       LoopCall.toggle "L2", LoopCall.setActive none]).loopState ∧
    activeMatchesEnabled (applyLoopCalls twoLoopStore
      [LoopCall.toggle "L1", LoopCall.setActive (some "L2"),
       LoopCall.toggle "L2", LoopCall.setActive none]).loopState :=
  c1_single_active_loop twoLoopStore
    [LoopCall.toggle "L1", LoopCall.setActive (some "L2"),
     LoopCall.toggle "L2", LoopCall.setActive none]
    (by decide) (by decide) (by decide) (by decide)

/-- C2: while an active, enabled loop with resolvable start marker `sm`
and end marker `em` exists, a throttle-passing time-update with
`currentTime ≥ em.time` issues exactly the corrective seek `sm.time`, one
with `currentTime < em.time` issues none; and the concrete simulation of
an enabled loop `[2 s, 5 s]` with updates at 2, 3, 4 s issues no seek,
while adding the 5 s update issues exactly one `seek 2`. -/
theorem c2_loop_auto_repeat (store : AudioStore) (lastT now : ℕ) (t : ℚ)
    (aid : String) (lp : Loop) (sm em : Marker)
    (ha : store.loopState.activeLoopId = some aid)
    (hl : findLoop store.loopState aid = some lp)
    (hen : lp.enabled = true)
    (hs : findMarker store.loopState lp.startMarkerId = some sm)
    (he : findMarker store.loopState lp.endMarkerId = some em)
    (hth : now - lastT > 20) :
    ((em.time ≤ t → (handleTimeUpdate store lastT now t).2.1 = [sm.time]) ∧
     (t < em.time → (handleTimeUpdate store lastT now t).2.1 = [])) ∧
    (runTimeUpdates activeLoopStore 0 [(100, 2), (200, 3), (300, 4)]).2.1 = [] ∧
    (runTimeUpdates activeLoopStore 0
      [(100, 2), (200, 3), (300, 4), (400, 5)]).2.1 = [2] := by
  refine ⟨⟨?_, ?_⟩, by decide, by decide⟩
  · intro h
    simp [handleTimeUpdate, hth, ha, hl, hen, hs, he, h]
  · intro h
    simp [handleTimeUpdate, hth, ha, hl, hen, hs, he, not_le.2 h]

/-- C2 witness: the auto-repeat theorem applied to the concrete enabled
loop `[2 s, 5 s]` at a 5 s update passing the throttle. -/
theorem c2_loop_auto_repeat_witness :
    (((exMarker "m2" 5).time ≤ 5 →
        (handleTimeUpdate activeLoopStore 0 100 5).2.1 = [(exMarker "m1" 2).time]) ∧
     ((5 : ℚ) < (exMarker "m2" 5).time →
        (handleTimeUpdate activeLoopStore 0 100 5).2.1 = [])) ∧
    (runTimeUpdates activeLoopStore 0 [(100, 2), (200, 3), (300, 4)]).2.1 = [] ∧
    (runTimeUpdates activeLoopStore 0
      [(100, 2), (200, 3), (300, 4), (400, 5)]).2.1 = [2] :=
  c2_loop_auto_repeat activeLoopStore 0 100 5 "L1" (exLoop "L1" "m1" "m2" true)
    (exMarker "m1" 2) (exMarker "m2" 5)
    (by decide) (by decide) (by decide) (by decide) (by decide) (by decide)

/-- C3 (counterexample): with the active loop `[2 s, 5 s]` and the
preserve flag clear, `seek 5` targets a time outside the claim's half-open
span `[2, 5)`, yet the code keeps the loop active: the claimed
"disabled iff outside `[s, e)`" equivalence is false at `time = 5`. -/
theorem c3_counterexample :
    ¬ ((((seek activeLoopStore 5).loopState.activeLoopId = none) ∧
        ∀ l ∈ (seek activeLoopStore 5).loopState.loops, l.enabled = false) ↔
       ¬ ((2 : ℚ) ≤ 5 ∧ (5 : ℚ) < 5)) := by
  decide

/-- C3 (amended): when the preserve flag is clear and the active loop and
its markers resolve, `seek time` clears `activeLoopId` and disables every
loop exactly when the target lies outside the **closed** span
`[startMarker.time, endMarker.time]`; when the preserve flag is set the
loop state is left untouched; and the seek always resets the flag. -/
theorem c3_seek_loop_boundary (store : AudioStore) (time : ℚ) (aid : String)
    (lp : Loop) (sm em : Marker)
    (ha : store.loopState.activeLoopId = some aid)
    (hl : findLoop store.loopState aid = some lp)
    (hs : findMarker store.loopState lp.startMarkerId = some sm)
    (he : findMarker store.loopState lp.endMarkerId = some em) :
    (store.preserveLoopOnNextSeek = false →
      ((((seek store time).loopState.activeLoopId = none) ∧
        ∀ l ∈ (seek store time).loopState.loops, l.enabled = false) ↔
       ¬ (sm.time ≤ time ∧ time ≤ em.time)))
    ∧ (store.preserveLoopOnNextSeek = true →
        (seek store time).loopState = store.loopState)
    ∧ (seek store time).preserveLoopOnNextSeek = false := by
  refine ⟨?_, ?_, rfl⟩
  · intro hp
    by_cases h1 : sm.time ≤ time
    · by_cases h2 : time ≤ em.time
      · simp [seek, seekDisablesLoops, seekingInsideActiveLoop,
          hp, ha, hl, hs, he, h1, h2]
      · simp [seek, seekDisablesLoops, seekingInsideActiveLoop,
          hp, ha, hl, hs, he, h1, h2, List.mem_map]
    · simp [seek, seekDisablesLoops, seekingInsideActiveLoop,
        hp, ha, hl, hs, he, h1, List.mem_map]
  · intro hp
    simp [seek, seekDisablesLoops, seekingInsideActiveLoop, hp]

/-- C3 witness: the amended theorem applied to the concrete active loop
`[2 s, 5 s]` and `seek 5`. -/
theorem c3_seek_loop_boundary_witness :
    (activeLoopStore.preserveLoopOnNextSeek = false →
      ((((seek activeLoopStore 5).loopState.activeLoopId = none) ∧
        ∀ l ∈ (seek activeLoopStore 5).loopState.loops, l.enabled = false) ↔
       ¬ ((exMarker "m1" 2).time ≤ 5 ∧ (5 : ℚ) ≤ (exMarker "m2" 5).time)))
    ∧ (activeLoopStore.preserveLoopOnNextSeek = true →
        (seek activeLoopStore 5).loopState = activeLoopStore.loopState)
    ∧ (seek activeLoopStore 5).preserveLoopOnNextSeek = false :=
  c3_seek_loop_boundary activeLoopStore 5 "L1" (exLoop "L1" "m1" "m2" true)
    (exMarker "m1" 2) (exMarker "m2" 5) (by decide) (by decide) (by decide) (by decide)

/-- C4: the compensated recording offset is
`expected + (actual - expected) / 2`, and for an expected start of 4 s and
an actual start of 4.02 s it equals 4.01 s (exact rational arithmetic). -/
theorem c4_half_latency_compensation :
    (∀ E A : ℚ, recordEndCompensatedOffset (some E) A = E + (A - E) / 2) ∧
    recordEndCompensatedOffset (some 4) (402/100) = 401/100 := by
  refine ⟨fun E A => rfl, ?_⟩
  norm_num [recordEndCompensatedOffset]

/-- C5: from any store with a sorted marker collection of at most 20
markers, every sequence of `addMarker` calls keeps the collection sorted
ascending by time with at most 20 entries; and an `addMarker` call on a
store that already holds 20 markers returns the store unchanged with the
empty id. -/
theorem c5_marker_sorted_capped (init : AudioStore) (cs : List AddMarkerCall)
    (hsorted : MarkersSorted init.loopState)
    (hlen : init.loopState.markers.length ≤ 20)
    (s : AudioStore) (t : ℚ) (nid : String) (now : ℕ) (lbl : Option String)
    (hcap : s.loopState.markers.length = 20) :
    MarkersSorted (applyAddMarkerCalls init cs).loopState ∧
    (applyAddMarkerCalls init cs).loopState.markers.length ≤ 20 ∧
    addMarker s t nid now lbl = (s, "") := by
  obtain ⟨a, b⟩ := applyAddMarkerCalls_inv cs init hsorted hlen
  refine ⟨a, b, ?_⟩
  unfold addMarker
  rw [if_pos (by omega)]

/-- C5 witness: two out-of-order `addMarker` calls on the empty store, and
a capped call on a concrete 20-marker store. -/
theorem c5_marker_sorted_capped_witness :
    MarkersSorted (applyAddMarkerCalls baseStore
      [⟨3, "a", 0, none⟩, ⟨1, "b", 1, none⟩]).loopState ∧
    (applyAddMarkerCalls baseStore
      [⟨3, "a", 0, none⟩, ⟨1, "b", 1, none⟩]).loopState.markers.length ≤ 20 ∧
    addMarker cappedMarkerStore 4 "c" 2 none = (cappedMarkerStore, "") :=
  c5_marker_sorted_capped baseStore [⟨3, "a", 0, none⟩, ⟨1, "b", 1, none⟩]
    (by decide) (by decide) cappedMarkerStore 4 "c" 2 none (by decide)

/-- C6: `removeMarker id` keeps exactly the markers whose id differs from
`id` and exactly the loops referencing neither end to `id` (unchanged, in
order), and — when a loop is active — clears `activeLoopId` if and only
if the active loop referenced the removed marker. -/
theorem c6_remove_marker_cascade (store : AudioStore) (id : String) (aid : String)
    (ha : store.loopState.activeLoopId = some aid) :
    (removeMarker store id).loopState.markers =
      store.loopState.markers.filter (fun m => m.id ≠ id) ∧
    (removeMarker store id).loopState.loops =
      store.loopState.loops.filter
        (fun l => l.startMarkerId ≠ id ∧ l.endMarkerId ≠ id) ∧
    ((removeMarker store id).loopState.activeLoopId = none ↔
      ∃ l ∈ store.loopState.loops,
        l.id = aid ∧ (l.startMarkerId = id ∨ l.endMarkerId = id)) := by
  refine ⟨?_, ?_, ?_⟩
  · simp only [removeMarker]
    exact List.filter_congr (fun m _ => by by_cases h : m.id = id <;> simp [h])
  · simp only [removeMarker]
    exact List.filter_congr (fun l _ => by
      by_cases h1 : l.startMarkerId = id <;> by_cases h2 : l.endMarkerId = id <;>
        simp [h1, h2])
  · simp only [removeMarker, ha]
    by_cases hany : (store.loopState.loops.filter
        (fun l => l.startMarkerId == id || l.endMarkerId == id)).any
          (fun l => some aid == some l.id) = true
    · rw [if_pos hany]
      simp only [true_iff]
      rw [List.any_eq_true] at hany
      obtain ⟨l, hl, hla⟩ := hany
      rw [List.mem_filter] at hl
      refine ⟨l, hl.1, ?_, ?_⟩
      · have : aid = l.id := by simpa using hla
        exact this.symm
      · simpa using hl.2
    · rw [if_neg hany]
      simp only [reduceCtorEq, false_iff, not_exists]
      intro l hcontra
      apply hany
      rw [List.any_eq_true]
      refine ⟨l, ?_, by simp [hcontra.2.1]⟩
      rw [List.mem_filter]
      exact ⟨hcontra.1, by simpa using hcontra.2.2⟩

/-- C6 witness: removing marker `m1` from the store whose active loop `L1`
references it. -/
theorem c6_remove_marker_cascade_witness :
    (removeMarker activeLoopStore "m1").loopState.markers =
      activeLoopStore.loopState.markers.filter (fun m => m.id ≠ "m1") ∧
    (removeMarker activeLoopStore "m1").loopState.loops =
      activeLoopStore.loopState.loops.filter
        (fun l => l.startMarkerId ≠ "m1" ∧ l.endMarkerId ≠ "m1") ∧
    ((removeMarker activeLoopStore "m1").loopState.activeLoopId = none ↔
      ∃ l ∈ activeLoopStore.loopState.loops,
        l.id = "L1" ∧ (l.startMarkerId = "m1" ∨ l.endMarkerId = "m1")) :=
  c6_remove_marker_cascade activeLoopStore "m1" "L1" (by decide)

/-- C7 (counterexample): with an identical `(m1, m2)` loop already
present, `createLoop m1 m2` is not a no-op on the loop collection — a
second loop is appended. -/
theorem c7_counterexample :
    (∃ l ∈ dupPairStore.loopState.loops,
        l.startMarkerId = "m1" ∧ l.endMarkerId = "m2") ∧
    (createLoop dupPairStore "m1" "m2" "NEW" 0).1.loopState.loops ≠
      dupPairStore.loopState.loops := by
  decide

/-- C7 (amended): `createLoop` performs no duplicate check: below the
10-loop cap, with both marker ids resolvable, a call whose (start, end)
pair already exists as a loop silently appends a further loop with that
pair (ordered by marker times) under a fresh id, and returns the fresh
id; no error is raised.  (The duplicate skip the spec describes lives in
the markers-panel caller, which checks before calling.) -/
theorem c7_create_loop_duplicate (store : AudioStore) (aId bId newId : String)
    (now : ℕ) (sm em : Marker)
    (hcap : store.loopState.loops.length < 10)
    (hs : findMarker store.loopState aId = some sm)
    (he : findMarker store.loopState bId = some em)
    (hdup : ∃ l ∈ store.loopState.loops,
      (l.startMarkerId = aId ∧ l.endMarkerId = bId) ∨
      (l.startMarkerId = bId ∧ l.endMarkerId = aId)) :
    (createLoop store aId bId newId now).1.loopState.loops =
      store.loopState.loops ++
        [{ id := newId
           startMarkerId := if sm.time < em.time then aId else bId
           endMarkerId := if sm.time < em.time then bId else aId
           enabled := false
           createdAt := now }] ∧
    (createLoop store aId bId newId now).2 = newId := by
  unfold createLoop
  rw [if_neg (by omega)]
  rw [hs, he]
  by_cases hlt : sm.time < em.time <;> simp [hlt]

/-- C7 witness: the duplicate-pair store with `createLoop m1 m2`. -/
theorem c7_create_loop_duplicate_witness :
    (createLoop dupPairStore "m1" "m2" "NEW" 0).1.loopState.loops =
      dupPairStore.loopState.loops ++
        [{ id := "NEW"
           startMarkerId :=
             if (exMarker "m1" 2).time < (exMarker "m2" 5).time then "m1" else "m2"
           endMarkerId :=
             if (exMarker "m1" 2).time < (exMarker "m2" 5).time then "m2" else "m1"
           enabled := false
           createdAt := 0 }] ∧
    (createLoop dupPairStore "m1" "m2" "NEW" 0).2 = "NEW" :=
  c7_create_loop_duplicate dupPairStore "m1" "m2" "NEW" 0
    (exMarker "m1" 2) (exMarker "m2" 5)
    (by decide) (by decide) (by decide) (by decide)

/-- C8 (counterexample): with duration 10, `seek (-1)` stores
`currentTime = -1`, not the clamp `min (max (-1) 0) 10 = 0`: `seek` does
not clamp. -/
theorem c8_counterexample :
    (seek baseStore (-1)).playbackState.currentTime ≠
      min (max (-1 : ℚ) 0) baseStore.playbackState.duration := by
  decide

/-- C8 (amended): after `seek time` the stored
`PlaybackState.currentTime` equals the input time unchanged — no clamping
to `[0, duration]` occurs in the store. -/
theorem c8_seek_stores_raw_time (store : AudioStore) (time : ℚ) :
    (seek store time).playbackState.currentTime = time := rfl

/-- C9 (counterexample): for a compensated offset of 0.17 s at a sample
rate of 10 Hz, the code prepends `⌊1.7⌋ = 1` silence sample where the
spec's `round` formula gives 2. -/
theorem c9_counterexample :
    addSilencePaddingMono [1] (17/100) 10 = [0, 1] ∧
    roundSpecPaddingSamples (17/100) 10 = 2 := by
  constructor
  · have h1 : paddingSamples (17/100) 10 = 1 := by
      norm_num [paddingSamples]
    simp [addSilencePaddingMono, h1]
  · norm_num [roundSpecPaddingSamples]

/-- C9 (amended): for every positive compensated offset, the number of
silence samples prepended before the recording equals
`⌊compensatedOffset × sampleRate⌋` (floor, not round). -/
theorem c9_floor_padding (data : List ℚ) (offsetSeconds sampleRate : ℚ)
    (h : 0 < offsetSeconds) :
    paddingSamples offsetSeconds sampleRate = ⌊offsetSeconds * sampleRate⌋ ∧
    addSilencePaddingMono data offsetSeconds sampleRate =
      List.replicate (⌊offsetSeconds * sampleRate⌋).toNat 0 ++ data := by
  have h0 : offsetSeconds + (0 : ℚ) / 1000 = offsetSeconds := by norm_num
  constructor
  · simp [paddingSamples, h0, h]
  · simp [addSilencePaddingMono, paddingSamples, h0, h]

/-- C9 witness: a 1 s offset at 10 Hz prepends `⌊10⌋ = 10` zeros. -/
theorem c9_floor_padding_witness :
    paddingSamples 1 10 = ⌊(1 : ℚ) * 10⌋ ∧
    addSilencePaddingMono [1] 1 10 =
      List.replicate (⌊(1 : ℚ) * 10⌋).toNat 0 ++ [1] :=
  c9_floor_padding [1] 1 10 (by decide)

/-- C10: referential integrity of `LoopState` — from any store in which
every loop's marker references resolve, every sequence of `addMarker`,
`removeMarker`, `updateMarkerTime`, `createLoop`, `removeLoop` and
edit-mode gesture (`handleMouseUp`) operations preserves that every
loop's `startMarkerId` and `endMarkerId` name markers present in the
marker collection. -/
theorem c10_referential_integrity (init : AudioStore) (ops : List EngineOp)
    (h : refIntegrity init.loopState) :
    refIntegrity (applyEngineOps init ops).loopState := by
  induction ops generalizing init with
  | nil => exact h
  | cons op rest ih => exact ih _ (refIntegrity_applyEngineOp init op h)

/-- C10 witness: a six-operation sequence (marker add, gesture loop
creation, loop creation, cascading marker removal, marker move, loop
removal) starting from the active-loop store. -/
theorem c10_referential_integrity_witness :
    refIntegrity (applyEngineOps activeLoopStore
      [EngineOp.addM 7 "m3" 0 none,
       EngineOp.gesture 1 8 "g1" "g2" "g3" 1,
       EngineOp.createL "m1" "m3" "L9" 2,
       EngineOp.removeM "m2",
       EngineOp.updateM "m3" 9,
       EngineOp.removeL "L9"]).loopState :=
  c10_referential_integrity activeLoopStore
    [EngineOp.addM 7 "m3" 0 none,
     EngineOp.gesture 1 8 "g1" "g2" "g3" 1,
     EngineOp.createL "m1" "m3" "L9" 2,
     EngineOp.removeM "m2",
     EngineOp.updateM "m3" 9,
     EngineOp.removeL "L9"] (by decide)

end Stemux
